import Mathlib

/-!
Shallow embedding of `src/file_scanner.py` (a directory-cataloging and
term-search program backed by a relational store).

Strings are modelled as `List Char`.  Python's `str.lower`/`str.upper` are
modelled with `Char.toLower`/`Char.toUpper` (ASCII case folding, which covers
every string the program and the spec exercise).  The filesystem and the
database connection are modelled explicitly:

* `FS` packages what the scanner observes: the triples produced by
  `os.walk` (root, dirs, files), plus oracles for `os.path.isdir`,
  `os.path.getsize` and the result of opening/reading a file
  (`none` = the read raised).
* The catalog table `files_info` is a `List FileRecord`; a search-result
  table is a list of `SearchRow`; the set of named result tables is a
  function from table name to row list.
-/

/-- Model of a Python string: a list of characters. -/
abbrev Str := List Char

/-- Python `s.lower()` (ASCII case folding). -/
def lowerStr (s : Str) : Str := s.map Char.toLower

/-- Python `s.upper()` (ASCII case folding). -/
def upperStr (s : Str) : Str := s.map Char.toUpper

/-- True when the first list is an initial segment of the second
(helper for Python's `in` and `str.count`). -/
def leadsWith : Str → Str → Bool
  | [], _ => true
  | _ :: _, [] => false
  | a :: as, b :: bs => a == b && leadsWith as bs

/-- Python `ned in hay` for strings: `ned` occurs contiguously in `hay`
(the empty string occurs in every string). -/
def isSubstr (ned : Str) : Str → Bool
  | [] => ned.isEmpty
  | c :: t => leadsWith ned (c :: t) || isSubstr ned t

/-- Fuel-driven worker for Python `str.count`: scans left to right and, on a
match of a nonempty needle, skips past the whole match (non-overlapping
counting).  The fuel is initialised to the haystack length, which the scan
never exhausts. -/
def countFuel (ned : Str) : Nat → Str → Nat
  | _, [] => 0
  | 0, _ :: _ => 0
  | fuel + 1, c :: rest =>
      if leadsWith ned (c :: rest)
      then 1 + countFuel ned fuel (List.drop (ned.length - 1) rest)
      else countFuel ned fuel rest

/-- Python `hay.count(ned)`: non-overlapping occurrence count; for the empty
needle Python returns `len(hay) + 1`. -/
def pyCount (hay ned : Str) : Nat :=
  if ned.isEmpty then hay.length + 1 else countFuel ned hay.length hay

/-- Python `os.path.basename` (POSIX): everything after the last slash. -/
def baseNameOf (p : Str) : Str :=
  (p.reverse.takeWhile (fun c => c ≠ '/')).reverse

/-- Extension part of `os.path.splitext` applied to a base name: the suffix
from the last dot, except that the leading run of dots of the name never
starts an extension (`".bashrc"` has none). -/
def extOf (base : Str) : Str :=
  let rest := base.dropWhile (fun c => c == '.')
  if rest.contains '.' then
    '.' :: (base.reverse.takeWhile (fun c => c ≠ '.')).reverse
  else []

/-- Extension part of `os.path.splitext(p)`: computed on the base name. -/
def extOfPath (p : Str) : Str := extOf (baseNameOf p)

/-- Python `os.path.join(root, name)` as the scanner uses it: root, slash,
name. -/
def pathJoin (a b : Str) : Str := a ++ '/' :: b

/-- Filesystem as observed by one scan pass of `file_scanner.py`. -/
structure FS where
  /-- Triples yielded by `os.walk(directory)`: (root, dirs, files). -/
  walk : List (Str × List Str × List Str)
  /-- Oracle for `os.path.isdir`. -/
  isDir : Str → Bool
  /-- Oracle for `os.path.getsize`. -/
  size : Str → Nat
  /-- Result of opening and reading a path as UTF-8 text; `none` means the
  attempt raised an exception. -/
  read : Str → Option Str

/-- Embedding of `get_file_type` (`file_scanner.py` lines 43-47). -/
def get_file_type (fs : FS) (file_path : Str) : Str :=
  if fs.isDir file_path then "Directory".toList
  else
    let file_extension := extOfPath file_path
    if file_extension ≠ [] then upperStr (file_extension.drop 1)
    else "Unknown".toList

/-- Embedding of `get_file_content` (`file_scanner.py` lines 49-57): empty
for directories, the file text on success, the sentinel on any failure. -/
def get_file_content (fs : FS) (file_path : Str) : Str :=
  if fs.isDir file_path then []
  else
    match fs.read file_path with
    | some t => t
    | none => "Unreadable".toList

/-- One row of the `files_info` catalog table. -/
structure FileRecord where
  file_name : Str
  full_path : Str
  file_extension : Str
  file_size : Nat
  file_type : Str
  content : Str
deriving DecidableEq

/-- Embedding of `file_exists` (`file_scanner.py` lines 59-61): point lookup
of a full path in the catalog. -/
def file_exists (cat : List FileRecord) (file_path : Str) : Bool :=
  cat.any (fun r => r.full_path == file_path)

/-- The FileRecord the scan loop body builds for one walk entry
(`file_scanner.py` lines 72-76): name and extension from the bare entry
name, size, type and content from the joined path. -/
def mkRecord (fs : FS) (root file : Str) : FileRecord :=
  let file_path := pathJoin root file
  { file_name := baseNameOf file
    full_path := file_path
    file_extension := extOfPath file
    file_size := fs.size file_path
    file_type := get_file_type fs file_path
    content := get_file_content fs file_path }

/-- One iteration of the scan loop body over the current transaction state:
skip the entry when its path is already visible to the cursor, otherwise
stage an INSERT of the freshly built record. -/
def processFile (fs : FS) (root file : Str) (cat : List FileRecord) :
    List FileRecord :=
  let file_path := pathJoin root file
  if file_exists cat file_path then cat
  else cat ++ [mkRecord fs root file]

/-- The (root, file) pairs the nested `for` loops of `insert_file_info`
visit, in order; the `dirs` component of each walk triple is bound to `_`
in the source and contributes nothing. -/
def walkPairs : List (Str × List Str × List Str) → List (Str × Str)
  | [] => []
  | (root, _, files) :: rest => files.map (fun f => (root, f)) ++ walkPairs rest

/-- Folding the scan loop body over a pair list. -/
def foldPairs (fs : FS) : List (Str × Str) → List FileRecord → List FileRecord
  | [], cat => cat
  | (root, file) :: rest, cat => foldPairs fs rest (processFile fs root file cat)

/-- Embedding of a successful `insert_file_info` pass (`file_scanner.py`
lines 63-86): walk the tree, dedup against the catalog, stage the new
records, commit. -/
def scanPass (fs : FS) (cat : List FileRecord) : List FileRecord :=
  foldPairs fs (walkPairs fs.walk) cat

/-- Scan loop body when an individual INSERT may raise
(`mysql.connector.Error`): `ok` says whether the staged INSERT of a record
succeeds; on failure the exception aborts the loop. -/
def processFileE (fs : FS) (ok : FileRecord → Bool) (root file : Str)
    (cat : List FileRecord) : Except Unit (List FileRecord) :=
  let file_path := pathJoin root file
  if file_exists cat file_path then .ok cat
  else
    let r := mkRecord fs root file
    if ok r then .ok (cat ++ [r]) else .error ()

/-- Running the fallible scan loop over a pair list: the first raising
INSERT aborts the remainder of the loop. -/
def runPairsE (fs : FS) (ok : FileRecord → Bool) :
    List (Str × Str) → List FileRecord → Except Unit (List FileRecord)
  | [], cat => .ok cat
  | (root, file) :: rest, cat =>
      match processFileE fs ok root file cat with
      | .ok cat2 => runPairsE fs ok rest cat2
      | .error e => .error e

/-- Embedding of `insert_file_info` with its exception handler
(`file_scanner.py` lines 63-86): on success the transaction is committed;
on a `mysql.connector.Error` the handler rolls the whole pass back, leaving
the committed catalog unchanged. -/
def insert_file_info (fs : FS) (ok : FileRecord → Bool)
    (cat : List FileRecord) : List FileRecord :=
  match runPairsE fs ok (walkPairs fs.walk) cat with
  | .ok cat2 => cat2
  | .error _ => cat

/-- One row of a named search-results table. -/
structure SearchRow where
  file_name : Str
  full_path : Str
  occurrences : Nat
  file_type : Str
deriving DecidableEq

/-- Loop body of `search_for_term` (`file_scanner.py` lines 113-125) for one
catalog record: the row the pass inserts for it, if any.  Mirrors the
source: the computed count, the filename-match branch inserting
`0 if occurrences == 0 else occurrences`, and the content-match branch
inserting the count. -/
def rowFor (search_term : Str) (r : FileRecord) : Option SearchRow :=
  let occurrences := pyCount (lowerStr r.content) (lowerStr search_term)
  if isSubstr (lowerStr search_term) (lowerStr r.file_name) then
    some { file_name := r.file_name, full_path := r.full_path,
           occurrences := if occurrences == 0 then 0 else occurrences,
           file_type := r.file_type }
  else if occurrences > 0 then
    some { file_name := r.file_name, full_path := r.full_path,
           occurrences := occurrences, file_type := r.file_type }
  else none

/-- Rows inserted by one `search_for_term` pass, in catalog order. -/
def search_for_term (cat : List FileRecord) (search_term : Str) :
    List SearchRow :=
  cat.filterMap (rowFor search_term)

/-- State of the named search-result tables: table name to committed rows. -/
def setTable (st : Str → List SearchRow) (name : Str)
    (rows : List SearchRow) : Str → List SearchRow :=
  fun t => if t == name then rows else st t

/-- Embedding of one full successful `search_for_term` call on the result
tables (`file_scanner.py` lines 105-126): create-if-absent, TRUNCATE the
named table, insert the row computed for each catalog record, commit. -/
def search_pass (cat : List FileRecord) (search_term table_name : Str)
    (st : Str → List SearchRow) : Str → List SearchRow :=
  let truncated := setTable st table_name []
  setTable truncated table_name (search_for_term cat search_term)

/-! ## Concrete fixtures -/

/-- A cataloged file whose name and content both contain "hello". -/
def recC1 : FileRecord :=
  { file_name := "hello.txt".toList, full_path := "/r/hello.txt".toList
    file_extension := ".txt".toList, file_size := 5
    file_type := "TXT".toList, content := "hello".toList }

/-- A cataloged file named "report.txt" with content "Hello hello world". -/
def recC5 : FileRecord :=
  { file_name := "report.txt".toList, full_path := "/r/report.txt".toList
    file_extension := ".txt".toList, file_size := 17
    file_type := "TXT".toList, content := "Hello hello world".toList }

/-- A cataloged file whose content read failed, so its content is the
sentinel. -/
def recC10 : FileRecord :=
  { file_name := "data.bin".toList, full_path := "/r/data.bin".toList
    file_extension := ".bin".toList, file_size := 9
    file_type := "BIN".toList, content := "Unreadable".toList }

/-- A tree whose only entry under the root is the directory "d": the walk
yields it in the dirs component and lists no files. -/
def fsDirOnly : FS :=
  { walk := [("/r".toList, ["d".toList], [])]
    isDir := fun p => p == "/r".toList || p == "/r/d".toList
    size := fun _ => 0
    read := fun _ => none }

/-- A tree with a single readable file "/r/a.txt". -/
def fsOneFile : FS :=
  { walk := [("/r".toList, [], ["a.txt".toList])]
    isDir := fun p => p == "/r".toList
    size := fun _ => 1
    read := fun p => if p == "/r/a.txt".toList then some "x".toList else none }

/-- A filesystem view on which every path is a non-directory whose read
raises. -/
def fsPlain : FS :=
  { walk := [], isDir := fun _ => false, size := fun _ => 0
    read := fun _ => none }

/-- A filesystem view on which every path is a non-directory that reads as
"x". -/
def fsReadable : FS :=
  { walk := [], isDir := fun _ => false, size := fun _ => 0
    read := fun _ => some "x".toList }

/-! ## General lemmas about the string model -/

/-- Python: the empty string is a substring of every string. -/
theorem isSubstr_nil (hay : Str) : isSubstr [] hay = true := by
  cases hay with
  | nil => rfl
  | cons c t => simp [isSubstr, leadsWith]

/-- A nonempty needle occurring in the haystack is counted at least once,
provided the fuel covers the haystack. -/
theorem countFuel_pos (ned : Str) (hne : ned ≠ []) :
    ∀ fuel hay, hay.length ≤ fuel → isSubstr ned hay = true →
      0 < countFuel ned fuel hay := by
  intro fuel
  induction fuel with
  | zero =>
    intro hay hlen hsub
    have hnil : hay = [] := List.eq_nil_of_length_eq_zero (Nat.le_zero.mp hlen)
    subst hnil
    cases ned with
    | nil => exact absurd rfl hne
    | cons a as => simp [isSubstr] at hsub
  | succ fuel ih =>
    intro hay hlen hsub
    cases hay with
    | nil =>
      cases ned with
      | nil => exact absurd rfl hne
      | cons a as => simp [isSubstr] at hsub
    | cons c t =>
      simp only [countFuel]
      by_cases hl : leadsWith ned (c :: t) = true
      · rw [if_pos hl]
        omega
      · rw [if_neg hl]
        rw [isSubstr] at hsub
        rcases Bool.or_eq_true _ _ |>.mp hsub with h1 | h2
        · exact absurd h1 hl
        · exact ih t (by simpa using Nat.succ_le_succ_iff.mp (by simpa using hlen)) h2

/-- A term occurring in the haystack has a positive Python count. -/
theorem pyCount_pos (hay ned : Str) (h : isSubstr ned hay = true) :
    0 < pyCount hay ned := by
  unfold pyCount
  split
  · omega
  · next hne =>
    have hne2 : ned ≠ [] := by
      cases ned with
      | nil => simp at hne
      | cons a as => simp
    exact countFuel_pos ned hne2 hay.length hay Nat.le.refl h

/-- Python count of the empty needle: haystack length plus one. -/
theorem pyCount_nil (hay : Str) : pyCount hay [] = hay.length + 1 := rfl

/-! ## Lemmas about catalog existence during a scan pass -/

/-- Existence after appending one record. -/
theorem file_exists_append_one (cat : List FileRecord) (r : FileRecord)
    (p : Str) :
    file_exists (cat ++ [r]) p = (file_exists cat p || (r.full_path == p)) := by
  simp [file_exists]

/-- The loop body never removes a path from the transaction state. -/
theorem file_exists_processFile (fs : FS) (root file : Str)
    (cat : List FileRecord) (p : Str) (h : file_exists cat p = true) :
    file_exists (processFile fs root file cat) p = true := by
  simp only [processFile]
  split
  · exact h
  · rw [file_exists_append_one, h, Bool.true_or]

/-- Folding the loop never removes a path from the transaction state. -/
theorem file_exists_foldPairs (fs : FS) (prs : List (Str × Str))
    (cat : List FileRecord) (p : Str) (h : file_exists cat p = true) :
    file_exists (foldPairs fs prs cat) p = true := by
  induction prs generalizing cat with
  | nil => exact h
  | cons pr rest ih =>
    cases pr with
    | mk root file =>
      rw [foldPairs]
      exact ih _ (file_exists_processFile fs root file cat p h)

/-- After the loop body runs on an entry, that entry's joined path exists. -/
theorem file_exists_processFile_self (fs : FS) (root file : Str)
    (cat : List FileRecord) :
    file_exists (processFile fs root file cat) (pathJoin root file) = true := by
  simp only [processFile]
  split
  · assumption
  · rw [file_exists_append_one, mkRecord]
    simp

/-- After a full pass, every visited entry's joined path exists. -/
theorem file_exists_foldPairs_mem (fs : FS) (prs : List (Str × Str)) :
    ∀ (cat : List FileRecord) (root file : Str), (root, file) ∈ prs →
      file_exists (foldPairs fs prs cat) (pathJoin root file) = true := by
  induction prs with
  | nil => intro cat root file h; cases h
  | cons pr rest ih =>
    intro cat root file h
    cases pr with
    | mk r0 f0 =>
      rw [foldPairs]
      rcases List.mem_cons.mp h with heq | hmem
      · injection heq with h1 h2
        subst h1; subst h2
        exact file_exists_foldPairs fs rest _ _
          (file_exists_processFile_self fs root file cat)
      · exact ih _ _ _ hmem

/-- The loop body skips an entry whose joined path already exists. -/
theorem processFile_skip (fs : FS) (root file : Str) (cat : List FileRecord)
    (h : file_exists cat (pathJoin root file) = true) :
    processFile fs root file cat = cat := by
  simp only [processFile]
  simp [h]

/-- A fold all of whose entries already exist changes nothing. -/
theorem foldPairs_id (fs : FS) (prs : List (Str × Str)) (cat : List FileRecord)
    (h : ∀ pr ∈ prs, file_exists cat (pathJoin pr.1 pr.2) = true) :
    foldPairs fs prs cat = cat := by
  induction prs with
  | nil => rfl
  | cons pr rest ih =>
    cases pr with
    | mk root file =>
      rw [foldPairs, processFile_skip fs root file cat (h _ (List.mem_cons_self _ _))]
      exact ih (fun pr hm => h pr (List.mem_cons_of_mem _ hm))

/-! ## Lemmas for dedup and provenance -/

/-- The loop body leaves the records carrying an already-cataloged path
untouched: it inserts no second record for that path and rewrites none. -/
theorem filter_processFile (fs : FS) (root file : Str) (cat : List FileRecord)
    (P : Str) (h : file_exists cat P = true) :
    (processFile fs root file cat).filter (fun r => r.full_path == P)
      = cat.filter (fun r => r.full_path == P) := by
  simp only [processFile]
  split
  · rfl
  · next hne =>
    rw [List.filter_append]
    have hfp : ((mkRecord fs root file).full_path == P) = false := by
      rw [mkRecord]
      by_contra hc
      have hbeq : (pathJoin root file == P) = true := by
        cases hb : (pathJoin root file == P) with
        | false => exact absurd hb hc
        | true => rfl
      have heq : pathJoin root file = P := eq_of_beq hbeq
      rw [heq] at hne
      exact hne h
    simp [List.filter, hfp]

/-- A full pass leaves the records carrying an already-cataloged path
untouched. -/
theorem filter_foldPairs (fs : FS) (prs : List (Str × Str)) :
    ∀ (cat : List FileRecord) (P : Str), file_exists cat P = true →
      (foldPairs fs prs cat).filter (fun r => r.full_path == P)
        = cat.filter (fun r => r.full_path == P) := by
  induction prs with
  | nil => intro cat P _; rfl
  | cons pr rest ih =>
    intro cat P h
    cases pr with
    | mk root file =>
      rw [foldPairs, ih _ P (file_exists_processFile fs root file cat P h)]
      exact filter_processFile fs root file cat P h

/-- A path absent before the fold and present after it was joined from one
of the visited (root, file) pairs. -/
theorem foldPairs_new_path (fs : FS) (prs : List (Str × Str)) :
    ∀ (cat : List FileRecord) (p : Str), file_exists cat p = false →
      file_exists (foldPairs fs prs cat) p = true →
      ∃ pr ∈ prs, p = pathJoin pr.1 pr.2 := by
  induction prs with
  | nil =>
    intro cat p h0 h1
    rw [foldPairs, h0] at h1
    cases h1
  | cons pr rest ih =>
    intro cat p h0 h1
    cases pr with
    | mk root file =>
      rw [foldPairs] at h1
      cases hc : file_exists (processFile fs root file cat) p with
      | true =>
        refine ⟨(root, file), List.mem_cons_self _ _, ?_⟩
        revert hc
        simp only [processFile]
        split
        · intro hc; rw [h0] at hc; cases hc
        · intro hc
          rw [file_exists_append_one, h0, Bool.false_or, mkRecord] at hc
          exact (eq_of_beq hc).symm
      | false =>
        obtain ⟨pr2, hm, hp⟩ := ih _ p hc h1
        exact ⟨pr2, List.mem_cons_of_mem _ hm, hp⟩

/-- Every pair the nested loops visit comes from the files component of a
walk triple. -/
theorem walkPairs_mem (w : List (Str × List Str × List Str))
    (pr : Str × Str) (h : pr ∈ walkPairs w) :
    ∃ t ∈ w, ∃ f ∈ t.2.2, pr = (t.1, f) := by
  induction w with
  | nil => cases h
  | cons t rest ih =>
    obtain ⟨root, ds, fls⟩ := t
    rw [walkPairs] at h
    rcases List.mem_append.mp h with h1 | h2
    · obtain ⟨f, hf, he⟩ := List.mem_map.mp h1
      exact ⟨(root, ds, fls), List.mem_cons_self _ _, f, hf, he.symm⟩
    · obtain ⟨t2, ht, hh⟩ := ih h2
      exact ⟨t2, List.mem_cons_of_mem _ ht, hh⟩

/-! ## Lemmas about the search loop body -/

/-- Searching for the empty term: the filename branch always fires (the empty
string is a substring of every name), the computed count is the content
length plus one, and that count, being nonzero, is the inserted value. -/
theorem rowFor_nil_term (r : FileRecord) :
    rowFor [] r
      = some ⟨r.file_name, r.full_path, r.content.length + 1, r.file_type⟩ := by
  simp only [rowFor, lowerStr, List.map_nil]
  rw [isSubstr_nil]
  have hc : pyCount (List.map Char.toLower r.content) [] = r.content.length + 1 := by
    rw [pyCount_nil, List.length_map]
  simp [hc]

/-- Filename-match branch of the search loop body: the inserted row carries
the computed content count (the source's `0 if occurrences == 0 else
occurrences` is the identity on naturals). -/
theorem rowFor_name_match (search_term : Str) (r : FileRecord)
    (h : isSubstr (lowerStr search_term) (lowerStr r.file_name) = true) :
    rowFor search_term r
      = some ⟨r.file_name, r.full_path,
          pyCount (lowerStr r.content) (lowerStr search_term), r.file_type⟩ := by
  simp only [rowFor, h, if_true]
  cases hc : pyCount (lowerStr r.content) (lowerStr search_term) with
  | zero => simp
  | succ n => simp

/-- Content-match branch of the search loop body: with no filename match, a
row is inserted exactly when the computed count is positive, and it carries
that count. -/
theorem rowFor_content (search_term : Str) (r : FileRecord)
    (h : isSubstr (lowerStr search_term) (lowerStr r.file_name) = false) :
    rowFor search_term r
      = (if 0 < pyCount (lowerStr r.content) (lowerStr search_term)
         then some ⟨r.file_name, r.full_path,
           pyCount (lowerStr r.content) (lowerStr search_term), r.file_type⟩
         else none) := by
  simp only [rowFor, h]
  rw [if_neg (by simp : ¬(false = true))]

/-! ## Claim theorems -/

/-- C1 counterexample: for the cataloged file "hello.txt" with content
"hello" and term "hello", the term is a case-insensitive substring of the
file name, yet the inserted row's occurrences field is 1, not 0: the claim
"occurrences = 0 regardless of the computed content count" is false of the
code, whose `0 if occurrences == 0 else occurrences` is the identity. -/
theorem C1_counterexample :
    isSubstr (lowerStr ("hello".toList)) (lowerStr recC1.file_name) = true
  ∧ (search_for_term [recC1] ("hello".toList)).map (fun row => row.occurrences)
      = [1] :=
  ⟨by decide, by decide⟩

/-- C1 (amended): for every catalog record and term, if the term is a
case-insensitive substring of the record's fileName, the search pass inserts
a row for that record whose occurrences field equals the computed count of
the term in the record's content (0 exactly when the content count is 0; it
is not forced to 0 when the content count is positive). -/
theorem C1_filename_row (cat : List FileRecord) (r : FileRecord)
    (search_term : Str) (hmem : r ∈ cat)
    (hname : isSubstr (lowerStr search_term) (lowerStr r.file_name) = true) :
    rowFor search_term r
      = some ⟨r.file_name, r.full_path,
          pyCount (lowerStr r.content) (lowerStr search_term), r.file_type⟩
  ∧ (⟨r.file_name, r.full_path,
       pyCount (lowerStr r.content) (lowerStr search_term),
       r.file_type⟩ : SearchRow) ∈ search_for_term cat search_term := by
  constructor
  · exact rowFor_name_match search_term r hname
  · exact List.mem_filterMap.mpr ⟨r, hmem, rowFor_name_match search_term r hname⟩

/-- Witness for C1 (amended) at the "hello.txt" record and term "hello". -/
theorem C1_witness :
    recC1 ∈ [recC1]
  ∧ isSubstr (lowerStr ("hello".toList)) (lowerStr recC1.file_name) = true
  ∧ (rowFor ("hello".toList) recC1
       = some ⟨recC1.file_name, recC1.full_path,
           pyCount (lowerStr recC1.content) (lowerStr ("hello".toList)),
           recC1.file_type⟩
     ∧ (⟨recC1.file_name, recC1.full_path,
          pyCount (lowerStr recC1.content) (lowerStr ("hello".toList)),
          recC1.file_type⟩ : SearchRow)
         ∈ search_for_term [recC1] ("hello".toList)) :=
  ⟨by decide, by decide,
    C1_filename_row [recC1] recC1 ("hello".toList) (by decide) (by decide)⟩

/-- C2 counterexample: in the tree whose only entry under the root is the
directory "d" (yielded by the walk in the dirs component and confirmed a
directory by the filesystem), a scan pass stages nothing: no FileRecord
with fileType "Directory" ever reaches the catalog, refuting the claim that
directories end up in the catalog as entries. -/
theorem C2_counterexample :
    fsDirOnly.walk = [("/r".toList, ["d".toList], [])]
  ∧ fsDirOnly.isDir ("/r/d".toList) = true
  ∧ scanPass fsDirOnly [] = []
  ∧ file_exists (scanPass fsDirOnly []) ("/r/d".toList) = false :=
  ⟨rfl, by decide, by decide, by decide⟩

/-- C2 (amended): a scan pass stages records only for the names listed in
the files component of the walk's triples — every path newly present in
the catalog after a pass is the join of a visited root with one of its
files; the dirs component is discarded unread, so directories themselves
are never cataloged. -/
theorem C2_files_only_provenance (fs : FS) (cat : List FileRecord) (p : Str)
    (h0 : file_exists cat p = false)
    (h1 : file_exists (scanPass fs cat) p = true) :
    ∃ t ∈ fs.walk, ∃ f ∈ t.2.2, p = pathJoin t.1 f := by
  obtain ⟨pr, hm, hp⟩ := foldPairs_new_path fs (walkPairs fs.walk) cat p h0 h1
  obtain ⟨t, ht, f, hf, he⟩ := walkPairs_mem fs.walk pr hm
  refine ⟨t, ht, f, hf, ?_⟩
  rw [hp, he]

/-- Witness for C2 (amended) on the one-file tree. -/
theorem C2_witness :
    file_exists [] ("/r/a.txt".toList) = false
  ∧ file_exists (scanPass fsOneFile []) ("/r/a.txt".toList) = true
  ∧ ∃ t ∈ fsOneFile.walk, ∃ f ∈ t.2.2, "/r/a.txt".toList = pathJoin t.1 f :=
  ⟨rfl, by decide,
    C2_files_only_provenance fsOneFile [] ("/r/a.txt".toList) rfl (by decide)⟩

/-- C3: all staged insertions of one scan pass commit as a single
transaction; when any single INSERT of the pass raises, the handler rolls
the pass back and the committed catalog is exactly what it was before the
pass — no record from the failing pass is visible afterward. -/
theorem C3_rollback_atomicity (fs : FS) (ok : FileRecord → Bool)
    (cat : List FileRecord)
    (h : runPairsE fs ok (walkPairs fs.walk) cat = .error ()) :
    insert_file_info fs ok cat = cat := by
  unfold insert_file_info
  rw [h]

/-- Witness for C3: on the one-file tree with every INSERT failing, the
pass raises and the catalog stays empty. -/
theorem C3_witness :
    runPairsE fsOneFile (fun _ => false) (walkPairs fsOneFile.walk) []
      = .error ()
  ∧ insert_file_info fsOneFile (fun _ => false) [] = [] :=
  ⟨rfl, C3_rollback_atomicity fsOneFile (fun _ => false) [] rfl⟩

/-- C4: scanning is idempotent and the catalog append-only — a second scan
of the same tree is a no-op, and for a path P already cataloged, a
subsequent scan over any filesystem state (the file at P may have changed
arbitrarily) neither inserts another record for P nor alters the existing
one. -/
theorem C4_idempotent_append_only (fs fs2 : FS) (cat : List FileRecord)
    (P : Str) (hP : file_exists cat P = true) :
    scanPass fs (scanPass fs cat) = scanPass fs cat
  ∧ (scanPass fs2 cat).filter (fun r => r.full_path == P)
      = cat.filter (fun r => r.full_path == P) := by
  constructor
  · unfold scanPass
    apply foldPairs_id
    intro pr hm
    exact file_exists_foldPairs_mem fs (walkPairs fs.walk) _ pr.1 pr.2 hm
  · exact filter_foldPairs fs2 (walkPairs fs2.walk) cat P hP

/-- Witness for C4 on the one-file tree, with P the cataloged file. -/
theorem C4_witness :
    file_exists (scanPass fsOneFile []) ("/r/a.txt".toList) = true
  ∧ (scanPass fsOneFile (scanPass fsOneFile (scanPass fsOneFile []))
       = scanPass fsOneFile (scanPass fsOneFile [])
     ∧ (scanPass fsOneFile (scanPass fsOneFile [])).filter
         (fun r => r.full_path == ("/r/a.txt".toList))
        = (scanPass fsOneFile []).filter
            (fun r => r.full_path == ("/r/a.txt".toList))) :=
  ⟨by decide,
    C4_idempotent_append_only fsOneFile fsOneFile (scanPass fsOneFile [])
      ("/r/a.txt".toList) (by decide)⟩

/-- Helper: the full result list of an empty-term search, rowwise. -/
theorem search_nil_term (cat : List FileRecord) :
    search_for_term cat []
      = cat.map (fun r =>
          (⟨r.file_name, r.full_path, r.content.length + 1,
            r.file_type⟩ : SearchRow)) := by
  induction cat with
  | nil => rfl
  | cons r rest ih =>
    simp only [search_for_term] at ih ⊢
    rw [List.filterMap_cons, rowFor_nil_term, List.map_cons, ih]

/-- C5: for a record whose file name does not contain the term, the search
pass inserts a row exactly when the case-insensitive non-overlapping count
of the term in the content is positive, and that row carries the true
count; and the count for content "Hello hello world" with term "hello"
is 2. -/
theorem C5_content_row_policy (r : FileRecord) (search_term : Str)
    (h : isSubstr (lowerStr search_term) (lowerStr r.file_name) = false) :
    rowFor search_term r
      = (if 0 < pyCount (lowerStr r.content) (lowerStr search_term)
         then some ⟨r.file_name, r.full_path,
           pyCount (lowerStr r.content) (lowerStr search_term), r.file_type⟩
         else none)
  ∧ pyCount (lowerStr ("Hello hello world".toList))
      (lowerStr ("hello".toList)) = 2 :=
  ⟨rowFor_content search_term r h, by decide⟩

/-- Witness for C5 at the "report.txt" record with content
"Hello hello world" and term "hello". -/
theorem C5_witness :
    isSubstr (lowerStr ("hello".toList)) (lowerStr recC5.file_name) = false
  ∧ (rowFor ("hello".toList) recC5
       = (if 0 < pyCount (lowerStr recC5.content) (lowerStr ("hello".toList))
          then some ⟨recC5.file_name, recC5.full_path,
            pyCount (lowerStr recC5.content) (lowerStr ("hello".toList)),
            recC5.file_type⟩
          else none)
     ∧ pyCount (lowerStr ("Hello hello world".toList))
         (lowerStr ("hello".toList)) = 2) :=
  ⟨by decide, C5_content_row_policy recC5 ("hello".toList) (by decide)⟩

/-- C6: two consecutive search passes into the same named result table
leave exactly the rows computed for the second term from the catalog it
read: the table is truncated and repopulated wholesale, with no residue of
the first pass. -/
theorem C6_result_set_replacement (cat1 cat2 : List FileRecord)
    (term1 term2 rs : Str) (st : Str → List SearchRow) :
    search_pass cat2 term2 rs (search_pass cat1 term1 rs st) rs
      = search_for_term cat2 term2 := by
  simp [search_pass, setTable]

/-- C7: the classifier returns "Directory" for directories, the uppercased
extension with the leading separator stripped for paths with a nonempty
extension, and "Unknown" otherwise; in particular "/a/b.TXT" classifies as
"TXT" and "/a/b" as "Unknown". -/
theorem C7_classifier (fs : FS) (p : Str) :
    (fs.isDir p = true → get_file_type fs p = "Directory".toList)
  ∧ (fs.isDir p = false → extOfPath p ≠ [] →
       get_file_type fs p = upperStr ((extOfPath p).drop 1))
  ∧ (fs.isDir p = false → extOfPath p = [] →
       get_file_type fs p = "Unknown".toList)
  ∧ get_file_type fsPlain ("/a/b.TXT".toList) = "TXT".toList
  ∧ get_file_type fsPlain ("/a/b".toList) = "Unknown".toList := by
  refine ⟨?_, ?_, ?_, by decide, by decide⟩
  · intro h
    simp [get_file_type, h]
  · intro h hne
    simp [get_file_type, h, hne]
  · intro h he
    simp [get_file_type, h, he]

/-- Witness for C7 at a file path with extension ".md". -/
theorem C7_witness :
    fsPlain.isDir ("/x/c.md".toList) = false
  ∧ extOfPath ("/x/c.md".toList) ≠ []
  ∧ get_file_type fsPlain ("/x/c.md".toList)
      = upperStr ((extOfPath ("/x/c.md".toList)).drop 1) :=
  ⟨rfl, by decide,
    (C7_classifier fsPlain ("/x/c.md".toList)).2.1 rfl (by decide)⟩

/-- C8: readContent returns the empty string for a directory, the file's
text on a successful read, and the sentinel "Unreadable" on a failed read;
it is a total function of the observed filesystem, so no error propagates
to its caller. -/
theorem C8_read_content (fs : FS) (p : Str) (t : Str) :
    (fs.isDir p = true → get_file_content fs p = [])
  ∧ (fs.isDir p = false → fs.read p = some t → get_file_content fs p = t)
  ∧ (fs.isDir p = false → fs.read p = none →
       get_file_content fs p = "Unreadable".toList) := by
  refine ⟨?_, ?_, ?_⟩
  · intro h
    simp [get_file_content, h]
  · intro h hr
    simp [get_file_content, h, hr]
  · intro h hr
    simp [get_file_content, h, hr]

/-- Witness for C8 at a non-directory path whose read raises. -/
theorem C8_witness :
    fsPlain.isDir ("/q".toList) = false
  ∧ fsPlain.read ("/q".toList) = none
  ∧ get_file_content fsPlain ("/q".toList) = "Unreadable".toList :=
  ⟨rfl, rfl, (C8_read_content fsPlain ("/q".toList) []).2.2 rfl rfl⟩

/-- C9: searching for the empty term inserts exactly one row per catalog
record (the empty string is a substring of every file name, so the filename
branch always fires), and each row's occurrences field is the record's
content length plus one. -/
theorem C9_empty_term (cat : List FileRecord) :
    (search_for_term cat []).length = cat.length
  ∧ (search_for_term cat []).map (fun row => row.occurrences)
      = cat.map (fun r => r.content.length + 1) := by
  rw [search_nil_term]
  constructor
  · rw [List.length_map]
  · rw [List.map_map]
    rfl

/-- C10: a record whose content is the sentinel "Unreadable" and whose file
name does not contain the term is matched as ordinary content by any term
occurring case-insensitively in "Unreadable": the search pass inserts a row
for it with a positive occurrence count. -/
theorem C10_sentinel_matched (cat : List FileRecord) (r : FileRecord)
    (search_term : Str) (hmem : r ∈ cat)
    (hc : r.content = "Unreadable".toList)
    (hn : isSubstr (lowerStr search_term) (lowerStr r.file_name) = false)
    (hs : isSubstr (lowerStr search_term)
            (lowerStr ("Unreadable".toList)) = true) :
    ∃ row ∈ search_for_term cat search_term,
      row.full_path = r.full_path ∧ 0 < row.occurrences := by
  have hcnt : 0 < pyCount (lowerStr r.content) (lowerStr search_term) := by
    rw [hc]
    exact pyCount_pos _ _ hs
  have hrow : rowFor search_term r
      = some ⟨r.file_name, r.full_path,
          pyCount (lowerStr r.content) (lowerStr search_term), r.file_type⟩ := by
    rw [rowFor_content search_term r hn, if_pos hcnt]
  exact ⟨_, List.mem_filterMap.mpr ⟨r, hmem, hrow⟩, rfl, hcnt⟩

/-- Witness for C10 at the unreadable "data.bin" record and term "read". -/
theorem C10_witness :
    recC10 ∈ [recC10]
  ∧ recC10.content = "Unreadable".toList
  ∧ isSubstr (lowerStr ("read".toList)) (lowerStr recC10.file_name) = false
  ∧ isSubstr (lowerStr ("read".toList))
      (lowerStr ("Unreadable".toList)) = true
  ∧ ∃ row ∈ search_for_term [recC10] ("read".toList),
      row.full_path = recC10.full_path ∧ 0 < row.occurrences :=
  ⟨by decide, rfl, by decide, by decide,
    C10_sentinel_matched [recC10] recC10 ("read".toList) (by decide) rfl
      (by decide) (by decide)⟩
